import Mathlib

/-!
# Verification of the TPL binary decoder

Shallow embedding of `tpl_parser.py` (Space Marine 2 TPL importer):
byte buffers are modelled as a size together with a byte-lookup function,
Python byte strings as `List Nat`, the forward-only binary cursor as a
`StateT Nat Option` computation (`none` models a raised `struct.error`),
Python ints as `Int`/`Nat`, and IEEE-754 float arithmetic of the two pure
normal-decompression functions as exact real arithmetic over `ℝ`.
-/

namespace TPL

/-- A read-only byte buffer: Python `bytes`.  `byteAt` is total; every
reader checks bounds against `size` exactly where the Python code either
checks bounds or would raise `struct.error`. -/
structure Buf where
  size : Nat
  byteAt : Nat → Nat

/-- Build a buffer from an explicit byte list (out-of-range reads return 0;
all modelled readers bound-check before calling `byteAt`). -/
def Buf.ofList (l : List Nat) : Buf :=
  ⟨l.length, fun i => l.getD i 0⟩

/-- Little-endian unsigned 16-bit value at offset `p` (Python `struct '<H'`). -/
def u16At (b : Buf) (p : Nat) : Nat :=
  b.byteAt p + 256 * b.byteAt (p + 1)

/-- Little-endian unsigned 32-bit value at offset `p` (Python `struct '<I'`). -/
def u32At (b : Buf) (p : Nat) : Nat :=
  b.byteAt p + 256 * (b.byteAt (p + 1) + 256 * (b.byteAt (p + 2) + 256 * b.byteAt (p + 3)))

/-- Interpret an unsigned 32-bit value as two's-complement signed (`'<i'`). -/
def toSigned32 (n : Nat) : Int :=
  if n < 2 ^ 31 then (n : Int) else (n : Int) - 2 ^ 32

/-- Interpret an unsigned 16-bit value as two's-complement signed (`'<h'`). -/
def toSigned16 (n : Nat) : Int :=
  if n < 2 ^ 15 then (n : Int) else (n : Int) - 2 ^ 16

/-- Little-endian signed 32-bit value at offset `p`. -/
def i32At (b : Buf) (p : Nat) : Int := toSigned32 (u32At b p)

/-- Cursor-threaded fallible read: the Python pattern of a `BinaryIO`
reader plus `struct.unpack`, where `none` models a raised `struct.error`.
The cursor is the advancing read position. -/
def PM (α : Type) : Type := Nat → Option (α × Nat)

instance : Monad PM where
  pure a := fun pos => some (a, pos)
  bind x f := fun pos =>
    match x pos with
    | some (a, pos') => f a pos'
    | none => none

/-- Run a cursor computation from a start position. -/
def PM.run {α : Type} (x : PM α) (pos : Nat) : Option (α × Nat) := x pos

/-- Failure of the current parse attempt (a raised exception). -/
def pmFail {α : Type} : PM α := fun _ => none

/-- Read exactly `n` bytes, failing on a short read
(`reader.read(n)` immediately consumed by `struct.unpack`). -/
def rdExact (b : Buf) (n : Nat) : PM (List Nat) := fun pos =>
  if pos + n ≤ b.size then
    some ((List.range n).map fun i => b.byteAt (pos + i), pos + n)
  else none

/-- Read up to `n` bytes, short reads allowed
(`reader.read(n)` whose result is not length-checked). -/
def rdUpTo (b : Buf) (n : Nat) : PM (List Nat) := fun pos =>
  let m := min n (b.size - pos)
  some ((List.range m).map fun i => b.byteAt (pos + i), pos + m)

/-- `struct.unpack('<B', reader.read(1))`. -/
def rdU8 (b : Buf) : PM Nat := do
  let bs ← rdExact b 1
  pure (bs.getD 0 0)

/-- Assemble a (little-endian) unsigned 32-bit value from a 4-byte list. -/
def u32ofBytes (l : List Nat) : Nat :=
  l.getD 0 0 + 256 * (l.getD 1 0 + 256 * (l.getD 2 0 + 256 * l.getD 3 0))

/-- `struct.unpack('<I', reader.read(4))`. -/
def rdU32 (b : Buf) : PM Nat := do
  let bs ← rdExact b 4
  pure (u32ofBytes bs)

/-- `struct.unpack('<i', reader.read(4))`. -/
def rdI32 (b : Buf) : PM Int := do
  let n ← rdU32 b
  pure (toSigned32 n)

/-- Run a cursor action `n` times, collecting results (`for _ in range(n)`). -/
def repM {α : Type} (n : Nat) (act : PM α) : PM (List α) :=
  match n with
  | 0 => pure []
  | k + 1 => do
    let x ← act
    let xs ← repM k act
    pure (x :: xs)

/-! ## Normal decompression (`frac`, `saturate`, `sign_f`,
`decompress_normal_from_int16`, `decompress_normal_from_float`)

The Python functions compute with IEEE-754 doubles; they are modelled here
in exact real arithmetic, which is the arithmetic the shader formulas in
the source comments (and the spec) are written in. -/

/-- `frac(x) = x - math.floor(x)` (HLSL frac, the non-negative fractional part). -/
noncomputable def frac (x : ℝ) : ℝ := x - ⌊x⌋

/-- `saturate(x) = max(0.0, min(1.0, x))` (HLSL saturate). -/
noncomputable def saturate (x : ℝ) : ℝ := max 0 (min 1 x)

/-- `sign_f(x)`: sign of an integer as a float, exactly `-1`, `0` or `1`. -/
def sign_f (x : Int) : ℝ :=
  if 0 < x then 1 else if x < 0 then -1 else 0

/-- `decompress_normal_from_int16(w)`: special-case `-32768` to `0`, then
`x = (-1 + 2·frac((1/181)·|w|))·(181/179)`,
`z = (-1 + 2·frac((1/181/181)·|w|))·(181/180)`,
`y = sign(w)·sqrt(saturate(1 − x·x − z·z))`. -/
noncomputable def decompress_normal_from_int16 (w : Int) : ℝ × ℝ × ℝ :=
  let w' : Int := if w = -32768 then 0 else w
  let a : ℝ := |(w' : ℝ)|
  let frac_x := frac ((1 / 181) * a)
  let frac_z := frac ((1 / 181 / 181) * a)
  let x := (-1 + 2 * frac_x) * (181 / 179)
  let z := (-1 + 2 * frac_z) * (181 / 180)
  let y_squared := saturate (1 - x * x - z * z)
  let y := sign_f w' * Real.sqrt y_squared
  (x, y, z)

/-- `decompress_normal_from_float(w)`: the three divisor constants in the
source are the exact decimal expansions of `1/256`, `1/256²`, `1/256³`. -/
noncomputable def decompress_normal_from_float (w : ℝ) : ℝ × ℝ × ℝ :=
  let x := -1 + 2 * frac ((1 / 256) * w)
  let y := -1 + 2 * frac ((1 / (256 * 256)) * w)
  let z := -1 + 2 * frac ((1 / (256 * 256 * 256)) * w)
  (x, y, z)

/-! ## Scene-graph data model (`Face`, `UVSet`, `VertexSkin`, `Bone`,
`Material`, `MeshData`, `TPLNode`)

Geometric float values are stored as exact rationals (`ℚ`) decoded from the
IEEE-754 bit patterns; the SER position scale `0.01` is the exact `1/100`.
`parent` back-references are non-owning lookups in the source and are not
modelled.  Children are a bespoke `NodeList` (isomorphic to `List TPLNode`)
so that structural recursion over the tree stays kernel-reducible. -/

/-- Decode a little-endian IEEE-754 single from its 4 bytes into an exact
rational.  `Inf`/`NaN` bit patterns (exponent 255), which have no rational
value, are mapped to `0`; no claim depends on such vertex values. -/
def f32le (b0 b1 b2 b3 : Nat) : ℚ :=
  let bits : Nat := b0 + 256 * (b1 + 256 * (b2 + 256 * b3))
  let s : Nat := bits / 2 ^ 31
  let e : Nat := bits / 2 ^ 23 % 256
  let m : Nat := bits % 2 ^ 23
  let sgn : ℚ := if s = 1 then -1 else 1
  if e = 0 then sgn * (m : ℚ) / 2 ^ 149
  else if e = 255 then 0
  else sgn * ((2 ^ 23 + m : Nat) : ℚ) * 2 ^ e / 2 ^ 150

/-- Decode a flat byte list as consecutive little-endian singles. -/
def f32sOf (bs : List Nat) (n : Nat) : List ℚ :=
  (List.range n).map fun i =>
    f32le (bs.getD (4 * i) 0) (bs.getD (4 * i + 1) 0)
      (bs.getD (4 * i + 2) 0) (bs.getD (4 * i + 3) 0)

/-- Triangle face (`Face`); in the USF material-index encoding `a` holds the
material index and `b = c = 0`. -/
structure Face where
  a : Nat
  b : Nat
  c : Nat
deriving DecidableEq, Repr

/-- UV coordinate set (`UVSet`). -/
structure UVSet where
  uvs : List (ℚ × ℚ)
  name : List Nat
deriving DecidableEq, Repr

/-- Per-vertex skinning record (`VertexSkin`). -/
structure VertexSkin where
  bone_indices : List Int
  weights : List ℚ
deriving DecidableEq, Repr

/-- Bone reference (`Bone`): node uid plus bind matrix (16 decoded floats). -/
structure Bone where
  node_uid : Int
  bind_matrix : List ℚ
deriving DecidableEq, Repr

/-- Material (`Material`).  The `key=value` property blob is kept raw: no
claim depends on the extracted `textureName`/`shadingMtl_Mtl` fields. -/
structure Material where
  name : List Nat
  mat_data : List Nat
deriving DecidableEq, Repr

/-- Mesh payload (`MeshData`).  `normalsPacked` holds the packed 16-bit
values of the SER path, whose decompressed values live in `ℝ` (see
`decompress_normal_from_int16`); `normals` holds USF float normals. -/
structure MeshData where
  vertices : List (ℚ × ℚ × ℚ) := []
  normals : List (ℚ × ℚ × ℚ) := []
  normalsPacked : List Nat := []
  faces : List Face := []
  uv_sets : List UVSet := []
  colors : List (List (ℚ × ℚ × ℚ × ℚ)) := []
  tangents : List (ℚ × ℚ × ℚ × ℚ) := []
  skins : List VertexSkin := []
  bones : List Bone := []
  materials : List Material := []
deriving DecidableEq, Repr

mutual
/-- Node in the TPL hierarchy (`TPLNode`): uid, name, `maya_node_id`, the
optional mesh, and the ordered children. -/
inductive TPLNode : Type where
  | mk (uid : Int) (name : List Nat) (maya_node_id : List Nat)
      (mesh : Option MeshData) (children : NodeList) : TPLNode

/-- Ordered list of child nodes. -/
inductive NodeList : Type where
  | nil : NodeList
  | cons (n : TPLNode) (ns : NodeList) : NodeList
end

def NodeList.ofList : List TPLNode → NodeList
  | [] => .nil
  | n :: ns => .cons n (NodeList.ofList ns)

def TPLNode.uid : TPLNode → Int
  | .mk u _ _ _ _ => u

def TPLNode.mesh : TPLNode → Option MeshData
  | .mk _ _ _ m _ => m

mutual
/-- All uids in the tree, in preorder. -/
def TPLNode.uids : TPLNode → List Int
  | .mk u _ _ _ cs => u :: NodeList.uids cs

def NodeList.uids : NodeList → List Int
  | .nil => []
  | .cons n ns => TPLNode.uids n ++ NodeList.uids ns
end

/-- Do all face records of a mesh index strictly inside its position array? -/
def meshFacesOK (m : MeshData) : Bool :=
  m.faces.all fun f =>
    decide (f.a < m.vertices.length) && decide (f.b < m.vertices.length) &&
      decide (f.c < m.vertices.length)

mutual
/-- `meshFacesOK` over every mesh in the tree. -/
def TPLNode.facesOK : TPLNode → Bool
  | .mk _ _ _ m cs =>
    (match m with
     | none => true
     | some md => meshFacesOK md) && NodeList.facesOK cs

def NodeList.facesOK : NodeList → Bool
  | .nil => true
  | .cons n ns => TPLNode.facesOK n && NodeList.facesOK ns
end

/-! ## String utilities (`read_string`)

Strings are kept as their raw byte lists.  For the module-level
`read_string` the Python code decodes with `errors='replace'`, which never
raises and never changes the byte count consumed; since no claim inspects
USF string contents, the decode step is the identity on the raw bytes. -/

/-- `read_string(reader)`: 4-byte signed length, then the payload.  A length
`≤ 0` or `> 10000` yields the empty string with the cursor right after the
length prefix; the payload read is allowed to come up short. -/
def read_string (b : Buf) : PM (List Nat) := do
  let length ← rdI32 b
  if length ≤ 0 ∨ 10000 < length then
    pure []
  else do
    let data ← rdUpTo b length.toNat
    pure data

/-! ## USF format (`usf_parse`, the `USFParser` class)

One function per source method; `_skip_lwi_info` … `_skip_ecs` are literal
no-ops in the source (`pass`), so after a set flag byte nothing further is
consumed.  The node recursion is bounded by explicit fuel; `usf_parse`
supplies `size + 1`, which can never be exhausted because every recursive
level consumes more than one byte of the buffer. -/

/-- One 4×4 matrix: 16 little-endian singles (`Matrix4.read`). -/
def rdMatrix (b : Buf) : PM (List ℚ) := do
  let bs ← rdExact b 64
  pure (f32sOf bs 16)

/-- Three little-endian singles (`struct.unpack('<fff', ...)`). -/
def rdVec3f (b : Buf) : PM (ℚ × ℚ × ℚ) := do
  let bs ← rdExact b 12
  match f32sOf bs 3 with
  | [x, y, z] => pure (x, y, z)
  | _ => pmFail

/-- Two little-endian singles (`struct.unpack('<ff', ...)`). -/
def rdVec2f (b : Buf) : PM (ℚ × ℚ) := do
  let bs ← rdExact b 8
  match f32sOf bs 2 with
  | [u, v] => pure (u, v)
  | _ => pmFail

/-- Four little-endian singles (`struct.unpack('<ffff', ...)`). -/
def rdVec4f (b : Buf) : PM (ℚ × ℚ × ℚ × ℚ) := do
  let bs ← rdExact b 16
  match f32sOf bs 4 with
  | [x, y, z, w] => pure (x, y, z, w)
  | _ => pmFail

/-- One little-endian single (`struct.unpack('<f', ...)`). -/
def rdF32 (b : Buf) : PM ℚ := do
  let bs ← rdExact b 4
  pure (f32le (bs.getD 0 0) (bs.getD 1 0) (bs.getD 2 0) (bs.getD 3 0))

/-- A packed 32-bit RGBA color, unpacked low-to-high byte and normalized
by 255 each. -/
def rdColor (b : Buf) : PM (ℚ × ℚ × ℚ × ℚ) := do
  let packed ← rdU32 b
  pure (((packed % 256 : Nat) : ℚ) / 255, ((packed / 2 ^ 8 % 256 : Nat) : ℚ) / 255,
    ((packed / 2 ^ 16 % 256 : Nat) : ℚ) / 255, ((packed / 2 ^ 24 % 256 : Nat) : ℚ) / 255)

/-- `reader.read(n)` for a Python int `n`, result discarded: a negative `n`
makes `BytesIO.read` consume everything remaining; a short read is fine. -/
def rdSkipPy (b : Buf) (n : Int) : PM Unit := fun pos =>
  if n < 0 then some ((), b.size)
  else some ((), min (pos + n.toNat) b.size)

/-- Like `repM` but the body receives the loop index (`for i in range(n)`). -/
def repMIdx {α : Type} (i n : Nat) (act : Nat → PM α) : PM (List α) :=
  match n with
  | 0 => pure []
  | k + 1 => do
    let x ← act i
    let xs ← repMIdx (i + 1) k act
    pure (x :: xs)

/-- The colors section of `_parse_mesh`: pre-0x102 files store one
un-prefixed color set (skipped entirely when its count is `≤ 0`),
later files a count-prefixed list of count-prefixed sets. -/
def rdColorsSec (b : Buf) (version : Int) : PM (List (List (ℚ × ℚ × ℚ × ℚ))) :=
  if version < 0x102 then do
    let color_count ← rdI32 b
    if 0 < color_count then do
      let cs ← repM color_count.toNat (rdColor b)
      pure [cs]
    else pure []
  else do
    let color_set_count ← rdI32 b
    repM color_set_count.toNat (do
      let color_count ← rdI32 b
      repM color_count.toNat (rdColor b))

/-- Synthesized UV-set name `uv{index}` for pre-0x107 meshes (the bytes of
`uv` followed by the ASCII digits of the index). -/
def uvNameBytes (i : Nat) : List Nat :=
  [117, 118] ++ (Nat.toDigits 10 i).map Char.toNat

/-- One UV set of `_parse_mesh`: the coordinates, then a stream name above
version 0x107, a synthesized `uv{i}` name below it. -/
def rdUVSet (b : Buf) (version : Int) (i : Nat) : PM UVSet := do
  let uv_count ← rdI32 b
  let uvs ← repM uv_count.toNat (rdVec2f b)
  let nm ← if 0x107 ≤ version then read_string b else pure (uvNameBytes i)
  pure (UVSet.mk uvs nm)

/-- The tangents section of `_parse_mesh` (only above version 0x103): all
sets are flattened into the single mesh-level tangent list. -/
def rdTangentsSec (b : Buf) (version : Int) : PM (List (ℚ × ℚ × ℚ × ℚ)) :=
  if 0x103 ≤ version then do
    let tangent_set_count ← rdI32 b
    let ts ← repM tangent_set_count.toNat (do
      let tangent_count ← rdI32 b
      repM tangent_count.toNat (rdVec4f b))
    pure ts.flatten
  else pure []

/-- One USF face record: a packed 32-bit field whose low 29 bits are a
material index, stored in `a` with `b = c = 0`. -/
def rdFaceU (b : Buf) : PM Face := do
  let data ← rdU32 b
  pure (Face.mk (data % 2 ^ 29) 0 0)

/-- One material of `_parse_mesh`: name, material version, and above
version 0x10A a vertex-color-usage word plus the property blob. -/
def rdMaterial (b : Buf) : PM Material := do
  let name ← read_string b
  let mat_version ← rdI32 b
  if 0x10A ≤ mat_version then do
    let _vertex_color_usage ← rdU32 b
    let mat_data_str ← read_string b
    pure (Material.mk name mat_data_str)
  else pure (Material.mk name [])

/-- The skinning section of `_parse_mesh`: a `bones_per_vertex` width read
once, then that many (index, weight) pairs per skinned vertex.  A negative
width makes Python's `struct.unpack(f'<{width}i', ...)` raise. -/
def rdSkinsSec (b : Buf) : PM (List VertexSkin) := do
  let bones_per_vertex ← rdI32 b
  if bones_per_vertex < 0 then pmFail
  else do
    let skin_count ← rdI32 b
    repM skin_count.toNat (do
      let bone_indices ← repM bones_per_vertex.toNat (rdI32 b)
      let weights ← repM bones_per_vertex.toNat (rdF32 b)
      pure (VertexSkin.mk bone_indices weights))

/-- One bone of `_parse_mesh`: node uid reference plus bind matrix. -/
def rdBone (b : Buf) : PM Bone := do
  let node_uid ← rdI32 b
  let bind_matrix ← rdMatrix b
  pure (Bone.mk node_uid bind_matrix)

/-- The bone-pair section (above 0x105): a count then `count * 8` skipped
bytes. -/
def rdPairsSec (b : Buf) (version : Int) : PM Unit :=
  if 0x105 ≤ version then do
    let pair_count ← rdI32 b
    rdSkipPy b (pair_count * 8)
  else pure ()

/-- The blend-shape section (above 0x106): keys are read by name only. -/
def rdBlendSec (b : Buf) (version : Int) : PM Unit :=
  if 0x106 ≤ version then do
    let blend_count ← rdI32 b
    let _keys ← repM blend_count.toNat (read_string b)
    pure ()
  else pure ()

/-- `USFParser._parse_mesh`. -/
def parse_mesh (b : Buf) : PM MeshData := do
  let version ← rdI32 b
  let vertex_count ← rdI32 b
  let vertices ← repM vertex_count.toNat (rdVec3f b)
  let normal_count ← rdI32 b
  let normals ← repM normal_count.toNat (rdVec3f b)
  let colors ← rdColorsSec b version
  let uv_set_count ← rdI32 b
  let uv_sets ← repMIdx 0 uv_set_count.toNat (rdUVSet b version)
  let tangents ← rdTangentsSec b version
  let face_count ← rdI32 b
  let faces ← repM face_count.toNat (rdFaceU b)
  let material_count ← rdI32 b
  let materials ← repM material_count.toNat (rdMaterial b)
  let skins ← rdSkinsSec b
  let _ ← if 0x104 ≤ version then rdU8 b else pure 0
  let bone_count ← rdI32 b
  let bones ← repM bone_count.toNat (rdBone b)
  let _ ← rdPairsSec b version
  let _ ← rdBlendSec b version
  pure { vertices := vertices, normals := normals, faces := faces, uv_sets := uv_sets,
         colors := colors, tangents := tangents, skins := skins, bones := bones,
         materials := materials }

/-- `USFParser._parse_node`, fuel-bounded recursion over the children. -/
def parse_node (b : Buf) : Nat → PM TPLNode
  | 0 => pmFail
  | fuel + 1 => do
    let version ← rdI32 b
    let uid ← rdI32 b
    let name ← read_string b
    let _model_name ← read_string b
    let _affixes ← read_string b
    let _pses_version ← rdI32 b
    let _pses_data ← read_string b
    let _local_matrix ← rdMatrix b
    let _world_matrix ← rdMatrix b
    let _local_original ← rdMatrix b
    let _source_id ← read_string b
    let _lwi_flag ← rdU8 b      -- `_skip_lwi_info` is a no-op
    let mesh_flag ← rdU8 b
    let mesh ← if mesh_flag ≠ 0 then do
        let m ← parse_mesh b
        pure (some m)
      else pure none
    let _anim_flag ← rdU8 b     -- `_skip_animation` is a no-op
    let _actor_flag ← rdU8 b    -- `_skip_actor` is a no-op
    let _ ← if 0x102 ≤ version then do let _ ← rdU8 b; pure () else pure ()
    let _ ← if 0x103 ≤ version then do let _ ← rdU8 b; pure () else pure ()
    let _ ← if 0x104 ≤ version then do let _ ← rdU8 b; pure () else pure ()
    let _ ← if 0x106 ≤ version then do let _ ← rdU8 b; pure () else pure ()
    let _ ← if 0x107 ≤ version then do let _ ← rdU8 b; pure () else pure ()
    let _ ← if 0x10A ≤ version then do let _ ← rdU8 b; pure () else pure ()
    let _ ← if 0x10C ≤ version then do let _ ← rdU8 b; pure () else pure ()
    let _ ← if 0x10D ≤ version then do let _ ← rdU8 b; pure () else pure ()
    let _ ← if 0x10E ≤ version then do let _ ← rdU8 b; pure () else pure ()
    let maya_node_id ← if 0x10B ≤ version then read_string b else pure []
    let child_count ← rdI32 b
    let children ← repM child_count.toNat (parse_node b fuel)
    pure (TPLNode.mk uid name maya_node_id mesh (NodeList.ofList children))

/-- `USFParser._parse` / `USFParser.load` over an in-memory buffer:
`some root?` models a `True` return with `self.root = root?`, `none` models
a caught exception and `False`. -/
def usf_parse (b : Buf) : Option (Option TPLNode) :=
  match ((do
      let _version ← rdI32 b
      let _source_path ← read_string b
      let _file_type ← read_string b
      let _options_str ← read_string b
      let _scene_version ← rdU32 b
      let has_root ← rdU8 b
      if has_root ≠ 0 then do
        let root ← parse_node b (b.size + 1)
        pure (some root)
      else pure none : PM (Option TPLNode)).run 0) with
  | some (r, _) => some r
  | none => none

/-! ## SER format (`ser_parse`, the `SERParser` class)

The main container `tpl` (Python `self.tpl_data`) and the sibling geometry
blob `geom` (`self.tpl_geom_data`; the empty buffer models a missing
`_data` file, exactly the `if not self.tpl_geom_data` check). -/

/-- The ASCII magic `1SER`. -/
def mSER : List Nat := [49, 83, 69, 82]

/-- The ASCII section marker `TPL1`. -/
def mTPL1 : List Nat := [84, 80, 76, 49]

/-- The ASCII section marker `OGM1`. -/
def mOGM1 : List Nat := [79, 71, 77, 49]

/-- The ASCII section marker `ANIM`. -/
def mANIM : List Nat := [65, 78, 73, 77]

/-- The bytes of the synthetic root name `.root.`. -/
def rootNameBytes : List Nat := [46, 114, 111, 111, 116, 46]

/-- The bytes of the synthetic geometry-node name `mesh`. -/
def meshNameBytes : List Nat := [109, 101, 115, 104]

/-- Does the byte string `m` occur in `b` starting at offset `i`? -/
def bufMatchAt (b : Buf) (m : List Nat) (i : Nat) : Bool :=
  decide (i + m.length ≤ b.size) &&
    (List.range m.length).all fun j => b.byteAt (i + j) == m.getD j 0

/-- `bytes.find(marker)`: offset of the first occurrence, `none` when the
Python call returns `-1`. -/
def findMarker (b : Buf) (m : List Nat) : Option Nat :=
  (List.range b.size).find? (bufMatchAt b m)

/-- The `self.tpl_data[:4] != b'1SER'` check of `SERParser.load`. -/
def serMagicOk (b : Buf) : Bool := bufMatchAt b mSER 0

/-- `str.isalpha` on a code point, exact on ASCII.  Python's Unicode
`isalpha` also accepts letters above `0x7F`; this predicate answers
`false` there, so the model can reject a recovered name whose only
letters are non-ASCII — the C8 acceptance theorem carries an explicit
all-ASCII hypothesis under which the two coincide, and no other claim's
property depends on which names pass. -/
def isAlphaAscii (c : Nat) : Bool :=
  decide (65 ≤ c) && decide (c ≤ 90) || decide (97 ≤ c) && decide (c ≤ 122)

/-- Is a byte a UTF-8 continuation byte (`10xxxxxx`)? -/
def utf8Cont (c : Nat) : Bool := decide (0x80 ≤ c) && decide (c < 0xC0)

/-- Decode one UTF-8 sequence: given the lead byte and the bytes after it,
the code point and the remaining bytes, or `none` exactly where CPython's
strict decoder errors — a misplaced continuation byte or invalid lead, a
missing continuation byte, an overlong encoding, a surrogate, or a code
point beyond `0x10FFFF`. -/
def utf8Step (b : Nat) (rest : List Nat) : Option (Nat × List Nat) :=
  if b < 0x80 then some (b, rest)
  else if b < 0xC2 then none
  else if b < 0xE0 then
    match rest with
    | c1 :: rest2 => if utf8Cont c1 then some ((b - 0xC0) * 64 + (c1 - 0x80), rest2) else none
    | [] => none
  else if b < 0xF0 then
    match rest with
    | c1 :: c2 :: rest2 =>
      if utf8Cont c1 && utf8Cont c2 then
        let cp := (b - 0xE0) * 4096 + (c1 - 0x80) * 64 + (c2 - 0x80)
        if cp < 0x800 ∨ (0xD800 ≤ cp ∧ cp < 0xE000) then none
        else some (cp, rest2)
      else none
    | _ => none
  else if b < 0xF5 then
    match rest with
    | c1 :: c2 :: c3 :: rest2 =>
      if utf8Cont c1 && utf8Cont c2 && utf8Cont c3 then
        let cp := (b - 0xF0) * 262144 + (c1 - 0x80) * 4096 + (c2 - 0x80) * 64 + (c3 - 0x80)
        if cp < 0x10000 ∨ 0x10FFFF < cp then none
        else some (cp, rest2)
      else none
    | _ => none
  else none

/-- The fuel-driven decode loop; every step consumes at least the lead
byte, so fuel equal to the byte count is never exhausted. -/
def utf8DecodeF : Nat → List Nat → Option (List Nat)
  | _, [] => some []
  | 0, _ :: _ => none
  | fuel + 1, b :: rest =>
    match utf8Step b rest with
    | some (cp, rest2) => (utf8DecodeF fuel rest2).map (cp :: ·)
    | none => none

/-- Strict UTF-8 decoding (`bytes.decode('utf-8')`): the sequence of code
points, or `none` on any invalid byte sequence. -/
def utf8Decode (l : List Nat) : Option (List Nat) := utf8DecodeF l.length l

/-- `str.rstrip('\0')`: drop trailing NUL bytes. -/
def rstrip0 (l : List Nat) : List Nat :=
  (l.reverse.dropWhile (· == 0)).reverse

/-- The raw payload of a name candidate: the `u32At b pos` bytes following
the 4-byte length prefix. -/
def serPayload (b : Buf) (pos : Nat) : List Nat :=
  (List.range (u32At b pos)).map fun j => b.byteAt (pos + 4 + j)

/-- `SERParser._read_string`: a 4-byte unsigned length, sanity-checked
against `(0, 256]`, then the payload, strictly UTF-8 decoded
(`utf8Decode`, giving the code-point sequence — so the later length checks
count characters as Python does) and NUL-stripped.  Returns the string
together with the updated position, which on the three failure paths is
the position the source returns (`pos`, `pos + 4`, and — for a decode
error, via the bare `except` — `pos + 4`). -/
def ser_read_string (b : Buf) (pos : Nat) : List Nat × Nat :=
  if b.size < pos + 4 then ([], pos)
  else
    let length := u32At b pos
    if 256 < length ∨ length = 0 then ([], pos)
    else if b.size < pos + 4 + length then ([], pos + 4)
    else
      match utf8Decode (serPayload b pos) with
      | some cps => (rstrip0 cps, pos + 4 + length)
      | none => ([], pos + 4)

/-- The acceptance test of `_parse_object_names` applied to a candidate
string: non-empty, length strictly between 1 and 100, at least one
alphabetic character. -/
def acceptName (nm : List Nat) : Bool :=
  !nm.isEmpty && decide (1 < nm.length) && decide (nm.length < 100) && nm.any isAlphaAscii

/-- Is the candidate at `pos` accepted as an object name? -/
def serNameAccept (b : Buf) (pos : Nat) : Bool :=
  acceptName (ser_read_string b pos).1

/-- The cursor movement of one `_parse_object_names` loop iteration:
to past the string when the candidate is accepted, one byte onward
otherwise. -/
def serNameStep (b : Buf) (pos : Nat) : Nat :=
  if serNameAccept b pos then (ser_read_string b pos).2 else pos + 1

/-- The name-recovery loop of `_parse_object_names` (`while pos <
ogm1_end - 10`), fuel-bounded; the cursor strictly increases every
iteration, so `b.size + 1` fuel is never exhausted. -/
def scanNames (b : Buf) (stop : Nat) : Nat → Nat → List (List Nat)
  | 0, _ => []
  | fuel + 1, pos =>
    if pos + 10 < stop then
      let r := ser_read_string b pos
      if acceptName r.1 then r.1 :: scanNames b stop fuel r.2
      else scanNames b stop fuel (pos + 1)
    else []

/-- Turn recovered names into nodes; each node's uid is the number of
objects already recovered (`uid=len(self.objects)`). -/
def nodesOfNames (k : Nat) : List (List Nat) → List TPLNode
  | [] => []
  | nm :: rest => TPLNode.mk (k : Int) nm [] none .nil :: nodesOfNames (k + 1) rest

/-- `_parse_tpl1` + `_parse_ogm1` + `_parse_object_names` (and the
`load` magic check): everything `SERParser._parse` recovers from the main
container.  `none` models any of the failure returns (missing magic,
missing `TPL1`/`OGM1` markers, or a `struct.unpack_from` raise on a
truncated header, caught by `_parse`). -/
def serNamedObjects (tpl : Buf) : Option (List TPLNode) :=
  if serMagicOk tpl then
    match findMarker tpl mTPL1 with
    | none => none
    | some t1 =>
      if t1 + 12 ≤ tpl.size then          -- version and data_size words
        match findMarker tpl mOGM1 with
        | none => none
        | some og =>
          if og + 14 ≤ tpl.size then      -- the five 16-bit counts
            let stop := (findMarker tpl mANIM).getD tpl.size
            some (nodesOfNames 0 (scanNames tpl stop (tpl.size + 1) (og + 14 + 100)))
          else none
      else none
  else none

/-- Round a rational to 4 decimal places (`round(v, 4)`).  On the SER
positions, integer multiples of `1/100`, this is the identity, so Python's
half-even tie-breaking cannot differ. -/
def round4 (q : ℚ) : ℚ := ((round (q * 10000) : ℤ) : ℚ) / 10000

/-- One iteration of the vertex loop of `_parse_geometry`: 8-byte stride,
three signed 16-bit positions scaled by `0.01` (exactly `1/100`) and one
packed 16-bit normal; deduplicated by the 4-decimal rounded position
triple, first occurrence wins.  The rounded scaled triple
`(round4 (x/100), round4 (y/100), round4 (z/100))` is in bijection with
the raw integer triple `(x, y, z)` (lemmas `round4_scale` and
`scale_inj`), so the dedup key is kept in integer form, which keeps the
parse kernel-computable.  Accumulator: kept positions, their packed
normals, the seen keys. -/
def serVertexStep (g : Buf) (acc : List (ℚ × ℚ × ℚ) × List Nat × List (Int × Int × Int))
    (i : Nat) : List (ℚ × ℚ × ℚ) × List Nat × List (Int × Int × Int) :=
  let off := i * 8
  if g.size < off + 8 then acc
  else
    let x := toSigned16 (u16At g off)
    let y := toSigned16 (u16At g (off + 2))
    let z := toSigned16 (u16At g (off + 4))
    let packed := u16At g (off + 6)
    let p : ℚ × ℚ × ℚ := ((x : ℚ) * (1 / 100), (y : ℚ) * (1 / 100), (z : ℚ) * (1 / 100))
    let key := (x, y, z)
    if acc.2.2.contains key then acc
    else (acc.1 ++ [p], acc.2.1 ++ [packed], key :: acc.2.2)

/-- The vertex region of `_parse_geometry`: `vc = vertex_data_end // 8`
records. -/
def serVertices (g : Buf) (vc : Nat) : List (ℚ × ℚ × ℚ) × List Nat :=
  let r := (List.range vc).foldl (serVertexStep g) ([], [], [])
  (r.1, r.2.1)

/-- Does a 6-byte record look like a valid non-degenerate triangle
(all indices under 100000, pairwise distinct)? -/
def validTri (a b c : Nat) : Bool :=
  decide (a < 100000) && decide (b < 100000) && decide (c < 100000) &&
    !(a == b) && !(b == c) && !(a == c)

/-- Score one candidate offset: walk up to 100 successive 6-byte records,
stopping at the end of the buffer, counting the valid ones. -/
def scoreAt (g : Buf) (p : Nat) : Nat :=
  ((List.range 100).foldl (fun acc i =>
      if acc.1 then acc
      else
        let off := p + i * 6
        if g.size < off + 6 then (true, acc.2)
        else
          (false, acc.2 +
            if validTri (u16At g off) (u16At g (off + 2)) (u16At g (off + 4)) then 1 else 0))
    (false, 0)).2

/-- `⌊log₂ n⌋` (0 for 0), by bounded search; correct for `n < 2^160`,
far beyond every value `pyIntMulConst` feeds it on its stated domain. -/
def natLog2 (n : Nat) : Nat :=
  ((List.range 160).filter fun b => 2 ^ (b + 1) ≤ n).length

/-- Round `N / 2^s` to the nearest integer, ties to even (the IEEE-754
default rounding). -/
def rne (N s : Nat) : Nat :=
  if s = 0 then N
  else
    let q := N / 2 ^ s
    let r := N % 2 ^ s
    let half := 2 ^ (s - 1)
    if r < half then q
    else if half < r then q + 1
    else q + q % 2

/-- `int(n * c)` in IEEE-754 double arithmetic, for a constant `c` equal
to the double `m / 2^53` and an integer `n < 2^53` (so Python's conversion
of `n` to double is exact): the single product is rounded to nearest, ties
to even, at 53 significant bits and then truncated.  Python's `int(n*0.7)`
truncates below `7n/10` for some sizes (e.g. `int(180*0.7) = 125`), so the
exact-fraction shortcut would be unfaithful; this computation was checked
against CPython's `int(n * c)` for all four fractions used by
`_find_face_data_offset` and every `n < 3_000_000`. -/
def pyIntMulConst (m n : Nat) : Nat :=
  let N := n * m
  if N = 0 then 0
  else
    let b := natLog2 N
    if b ≤ 52 then N / 2 ^ 53
    else rne N (b - 52) * 2 ^ (b - 52) / 2 ^ 53

/-- The numerator over `2^53` of the IEEE-754 double nearest to `0.8`
(slightly above 8/10). -/
def dbl08 : Nat := 7205759403792794

/-- The numerator over `2^53` of the IEEE-754 double nearest to `0.85`
(slightly below 85/100). -/
def dbl085 : Nat := 7656119366529843

/-- The numerator over `2^53` of the IEEE-754 double nearest to `0.9`
(slightly above 9/10). -/
def dbl09 : Nat := 8106479329266893

/-- The numerator over `2^53` of the IEEE-754 double nearest to `0.7`
(slightly below 7/10). -/
def dbl07 : Nat := 6305039478318694

/-- The candidate start offsets of `_find_face_data_offset`, in source
order `int(len*0.8), int(len*0.85), int(len*0.9), int(len*0.7)` computed
in double arithmetic, each aligned down to a multiple of 6. -/
def faceCandidates (g : Buf) : List Nat :=
  [pyIntMulConst dbl08 g.size, pyIntMulConst dbl085 g.size,
   pyIntMulConst dbl09 g.size, pyIntMulConst dbl07 g.size].map
    fun t => t / 6 * 6

/-- `SERParser._find_face_data_offset`: the first candidate whose score
strictly exceeds 80 wins; `0` when none does.  (The `OGM1` lookup at the
top of the source method has an empty body and is not modelled.) -/
def find_face_data_offset (g : Buf) : Nat :=
  match (faceCandidates g).find? (fun t => decide (80 < scoreAt g t)) with
  | some t => t
  | none => 0

/-- The vertex/face boundary chosen by `_parse_geometry`: the discovered
offset, or `int(data_len * 0.9)` (in double arithmetic) as fallback. -/
def serVertexEnd (g : Buf) : Nat :=
  if 0 < find_face_data_offset g then find_face_data_offset g
  else pyIntMulConst dbl09 g.size

/-- The face region of `_parse_geometry`: 6-byte records from `off`,
`fds // 6` of them, each kept only when all three indices are below the
deduplicated vertex count `mv`. -/
def serFaces (g : Buf) (off fds mv : Nat) : List Face :=
  (List.range (fds / 6)).filterMap fun i =>
    let o := off + 6 * i
    if g.size < o + 6 then none
    else
      let a := u16At g o
      let b := u16At g (o + 2)
      let c := u16At g (o + 4)
      if a < mv ∧ b < mv ∧ c < mv then some (Face.mk a b c) else none

/-- The kept faces of `_parse_geometry`: the face region starts at the
vertex/face boundary (in the source `face_offset` always equals
`vertex_data_end`: the discovered offset, or the `int(len*0.9)` fallback),
capped at
1000000 bytes, validated against the deduplicated vertex count. -/
def serGeomFaces (geom : Buf) : List Face :=
  serFaces geom (serVertexEnd geom) (min (geom.size - serVertexEnd geom) 1000000)
    (serVertices geom (serVertexEnd geom / 8)).1.length

/-- The mesh assembled by `_parse_geometry`: deduplicated vertices with
their packed normals (`vertex_count = vertex_data_end // 8`), plus the
kept faces. -/
def serMeshData (geom : Buf) : MeshData :=
  { vertices := (serVertices geom (serVertexEnd geom / 8)).1,
    normalsPacked := (serVertices geom (serVertexEnd geom / 8)).2,
    faces := serGeomFaces geom }

/-- `SERParser._parse_geometry`: the synthetic mesh node, present exactly
when there is geometry data and both the deduplicated vertex list and the
kept face list are non-empty. -/
def serGeometry (geom : Buf) : Option TPLNode :=
  if geom.size = 0 then none
  else if (serVertices geom (serVertexEnd geom / 8)).1 ≠ [] ∧ serGeomFaces geom ≠ [] then
    some (TPLNode.mk 0 meshNameBytes [] (some (serMeshData geom)) .nil)
  else none

/-- The final object list: the geometry node, when present, is inserted at
the front (`self.objects.insert(0, mesh_node)`). -/
def serObjs (geom : Buf) (objs0 : List TPLNode) : List TPLNode :=
  match serGeometry geom with
  | some m => m :: objs0
  | none => objs0

/-- `SERParser._build_hierarchy`: the synthetic root (uid `-1`, name
`.root.`) owning all recovered objects. -/
def serRootNode (objs : List TPLNode) : TPLNode :=
  TPLNode.mk (-1) rootNameBytes [] none (NodeList.ofList objs)

/-- `SERParser.load` + `_parse` over in-memory buffers: `some root?` models
a `True` return with `self.root = root?` (which `_build_hierarchy` leaves
`None` when no objects were recovered), `none` models `False`. -/
def ser_parse (tpl geom : Buf) : Option (Option TPLNode) :=
  match serNamedObjects tpl with
  | none => none
  | some objs0 =>
    some (if (serObjs geom objs0).isEmpty then none
      else some (serRootNode (serObjs geom objs0)))

/-! ## Unified loader (`load_tpl`) -/

/-- The format tag returned by `load_tpl`. -/
inductive Fmt : Type where
  | usf : Fmt
  | ser : Fmt
  | unknown : Fmt
deriving DecidableEq, Repr

/-- The `try both parsers` tail of `load_tpl`. -/
def tryBoth (b g : Buf) : Option (Option TPLNode) × Fmt :=
  match ser_parse b g with
  | some r => (r, Fmt.ser)
  | none =>
    match usf_parse b with
    | some r => (r, Fmt.usf)
    | none => (some none, Fmt.unknown)

/-- Normalize the `tryBoth`/branch results into the loader result. -/
def loadResult (p : Option (Option TPLNode) × Fmt) : Option TPLNode × Fmt :=
  (p.1.getD none, p.2)

/-- `load_tpl`, file reading replaced by the two in-memory buffers.
`none` models the uncaught `struct.error` when the file holds fewer than
4 header bytes; otherwise `some (root?, fmt)` is the returned pair. -/
def load_tpl (b g : Buf) : Option (Option TPLNode × Fmt) :=
  if serMagicOk b then
    match ser_parse b g with
    | some r => some (r, Fmt.ser)
    | none => some (none, Fmt.ser)
  else if 4 ≤ b.size then
    let version := i32At b 0
    if 0 < version ∧ version < 1000 then
      match usf_parse b with
      | some r => some (r, Fmt.usf)
      | none => some (loadResult (tryBoth b g))
    else some (loadResult (tryBoth b g))
  else none

/-! ## Result projections used by the theorems -/

/-- The uid list of the tree of a successful parse with a root. -/
def serRootUids (tpl geom : Buf) : Option (List Int) :=
  match ser_parse tpl geom with
  | some (some t) => some t.uids
  | _ => none

/-- `TPLNode.facesOK` on a parse result that produced a root. -/
def resultFacesOK (r : Option (Option TPLNode)) : Option Bool :=
  match r with
  | some (some t) => some t.facesOK
  | _ => none

/-- Did a parse result succeed with a root node? -/
def resultHasRoot (r : Option (Option TPLNode)) : Option Bool :=
  match r with
  | some (some _) => some true
  | some none => some false
  | none => none

/-- The face list of the root node's mesh, when the parse succeeded with a
root carrying a mesh. -/
def rootMeshFaces (r : Option (Option TPLNode)) : Option (List Face) :=
  match r with
  | some (some t) =>
    match t.mesh with
    | some m => some m.faces
    | none => none
  | _ => none

/-- The position count of the root node's mesh. -/
def rootMeshVertexCount (r : Option (Option TPLNode)) : Option Nat :=
  match r with
  | some (some t) =>
    match t.mesh with
    | some m => some m.vertices.length
    | none => none
  | _ => none

/-! ## The object-name acceptance predicate as the spec words it

A refinement comparison point for the name-recovery heuristic: per the
spec sentence, a candidate is accepted exactly when its decoded 4-byte
length lies in the open interval `(0, 100)` and the decoded payload
contains at least one alphabetic character. -/

/-- Spec-side acceptance predicate (to be compared with `serNameAccept`,
which embeds the source). -/
def specNameAccept (b : Buf) (pos : Nat) : Bool :=
  let length := u32At b pos
  decide (0 < length) && decide (length < 100) && (serPayload b pos).any isAlphaAscii

/-! ## Concrete buffers for the counterexamples and witnesses -/

/-- Four zero bytes: an `Int32 0` (also an empty length-prefixed string). -/
def z4 : List Nat := [0, 0, 0, 0]

/-- Little-endian 4-byte encoding of a signed 32-bit value. -/
def i32bytes (n : Int) : List Nat :=
  let u := (n % 2 ^ 32).toNat
  [u % 256, u / 256 % 256, u / 2 ^ 16 % 256, u / 2 ^ 24 % 256]

/-- The empty buffer (a missing `_data` sibling file). -/
def bufEmpty : Buf := Buf.ofList []

/-- A 4-byte file whose USF parse dies at the first string read and whose
SER parse dies at the magic check. -/
def bufA : Buf := Buf.ofList [1, 0, 0, 0]

/-- A 141-byte `1SER` container: `TPL1` header, `OGM1` counts, and one
recoverable object name `abc` placed 100 bytes after the counts. -/
def tplC3 : Buf := Buf.ofList (mSER ++ mTPL1 ++ [7, 0, 0, 0] ++ z4 ++ mOGM1
  ++ [1, 0, 0, 0, 1, 0, 1, 0, 1, 0] ++ List.replicate 100 0
  ++ [3, 0, 0, 0, 97, 98, 99] ++ z4)

/-- An 80-byte geometry blob: nine 8-byte vertex records with distinct x
positions, then one valid face record `(0, 1, 2)` in the fallback face
region (the last 10% of the blob). -/
def geomC3 : Buf := Buf.ofList
  (((List.range 72).map fun i => if i % 8 == 0 then i / 8 else 0) ++ [0, 0, 1, 0, 2, 0] ++ [0, 0])

/-- A 5-byte buffer whose name candidate at offset 0 has decoded length 1
and payload `a`. -/
def bufC8 : Buf := Buf.ofList [1, 0, 0, 0, 97]

/-- The byte pattern of the valid face record `(1, 2, 3)`, repeated. -/
def validPat (j : Nat) : Nat := [1, 0, 2, 0, 3, 0].getD (j % 6) 0

/-- A 6000-byte geometry blob whose 0.8-fraction candidate (offset 4800)
scores exactly 80 of 100: records `(1, 2, 3)` fill `[4800, 5280)` and
everything else is zeros. -/
def blobC5 : Buf :=
  ⟨6000, fun i => if i < 4800 then 0 else if i < 5280 then validPat (i - 4800) else 0⟩

/-- A 6000-byte geometry blob made entirely of valid face records: the
0.8-fraction candidate scores 100 of 100. -/
def blobW : Buf := ⟨6000, fun i => validPat i⟩

/-- A USF node body with no mesh and no children (version 0x101, uid 7). -/
def nodeCexBytes : List Nat := i32bytes 257 ++ i32bytes 7 ++ z4 ++ z4 ++ z4 ++ z4 ++ z4
  ++ List.replicate 192 0 ++ z4 ++ [0, 0, 0, 0] ++ i32bytes 0

/-- A file whose first four bytes are the `1SER` magic but whose body is a
well-formed USF stream with one root node: the SER parse fails (no `TPL1`
marker), the USF parse succeeds with a root. -/
def bufCex : Buf := Buf.ofList (mSER ++ z4 ++ z4 ++ z4 ++ z4 ++ [1] ++ nodeCexBytes)

/-- A USF mesh body (version 0x101): no vertices, no normals, no colors,
no UV sets, one face record with material-index field 5, no materials, no
skins, no bones. -/
def meshC7Bytes : List Nat := i32bytes 257 ++ i32bytes 0 ++ i32bytes 0 ++ i32bytes 0
  ++ i32bytes 0 ++ i32bytes 1 ++ i32bytes 5 ++ i32bytes 0 ++ i32bytes 0 ++ i32bytes 0
  ++ i32bytes 0

/-- A USF node (version 0x101, uid 42) carrying `meshC7Bytes`. -/
def nodeC7Bytes : List Nat := i32bytes 257 ++ i32bytes 42 ++ z4 ++ z4 ++ z4 ++ z4 ++ z4
  ++ List.replicate 192 0 ++ z4 ++ [0] ++ [1] ++ meshC7Bytes ++ [0] ++ [0] ++ i32bytes 0

/-- A complete USF file (version 1) whose root node carries a mesh with an
empty position array and one face record `(5, 0, 0)`. -/
def bufC7 : Buf := Buf.ofList (i32bytes 1 ++ z4 ++ z4 ++ z4 ++ z4 ++ [1] ++ nodeC7Bytes)

/-! # Theorems -/

set_option maxRecDepth 400000
set_option maxHeartbeats 3200000

/-! ## Cursor-monad run lemmas -/

theorem pm_run_bind {α β : Type} (x : PM α) (f : α → PM β) (pos : Nat) :
    (x >>= f).run pos =
      match x.run pos with
      | some (a, p) => (f a).run p
      | none => none := rfl

theorem pm_run_pure {α : Type} (a : α) (pos : Nat) :
    (pure a : PM α).run pos = some (a, pos) := rfl

theorem rdExact_run (b : Buf) (n pos : Nat) (h : pos + n ≤ b.size) :
    (rdExact b n).run pos =
      some ((List.range n).map fun i => b.byteAt (pos + i), pos + n) := by
  simp [rdExact, PM.run, h]

theorem range4_eq : List.range 4 = [0, 1, 2, 3] := rfl

theorem rdU32_run (b : Buf) (pos : Nat) (h : pos + 4 ≤ b.size) :
    (rdU32 b).run pos = some (u32At b pos, pos + 4) := by
  simp [rdU32, pm_run_bind, rdExact_run b 4 pos h, range4_eq, pm_run_pure,
    u32ofBytes, u32At]

theorem rdI32_run (b : Buf) (pos : Nat) (h : pos + 4 ≤ b.size) :
    (rdI32 b).run pos = some (i32At b pos, pos + 4) := by
  simp [rdI32, pm_run_bind, rdU32_run b pos h, pm_run_pure, i32At]

/-! ## The fractional part -/

theorem frac_eq_fract (x : ℝ) : frac x = Int.fract x := rfl

theorem frac_nonneg (x : ℝ) : 0 ≤ frac x := by
  rw [frac_eq_fract]; exact Int.fract_nonneg x

theorem frac_lt_one (x : ℝ) : frac x < 1 := by
  rw [frac_eq_fract]; exact Int.fract_lt_one x

/-! ## Claim C9 -/

/-- C9: whenever at least 4 bytes remain at the cursor and the decoded
signed 32-bit length prefix is `≤ 0` or `> 10000`, `read_string` returns
the empty string, leaves the cursor immediately after the 4-byte prefix,
reads nothing past the buffer (the final cursor stays within it), and does
not raise (the run returns `some`). -/
theorem c9_read_string_bad_length (b : Buf) (pos : Nat) (h4 : pos + 4 ≤ b.size)
    (hbad : i32At b pos ≤ 0 ∨ 10000 < i32At b pos) :
    (read_string b).run pos = some ([], pos + 4) ∧ pos + 4 ≤ b.size := by
  refine ⟨?_, h4⟩
  simp [read_string, pm_run_bind, rdI32_run b pos h4, if_pos hbad, pm_run_pure]

/-- Witness for C9 at the concrete buffer `[0, 0, 0, 0]` (decoded length
`0 ≤ 0`). -/
theorem c9_witness :
    (read_string (Buf.ofList [0, 0, 0, 0])).run 0 = some ([], 0 + 4) ∧
      0 + 4 ≤ (Buf.ofList [0, 0, 0, 0]).size :=
  c9_read_string_bad_length (Buf.ofList [0, 0, 0, 0]) 0 (by decide) (Or.inl (by decide))

/-! ## Claim C10 -/

/-- C10: every component of `decompress_normal_from_float` lies in
`[-1, 1)`: each is `-1` plus twice a non-negative fractional part that is
strictly below one. -/
theorem c10_float_components_range (w : ℝ) :
    (-1 ≤ (decompress_normal_from_float w).1 ∧ (decompress_normal_from_float w).1 < 1) ∧
    (-1 ≤ (decompress_normal_from_float w).2.1 ∧ (decompress_normal_from_float w).2.1 < 1) ∧
    (-1 ≤ (decompress_normal_from_float w).2.2 ∧ (decompress_normal_from_float w).2.2 < 1) := by
  simp only [decompress_normal_from_float]
  refine ⟨⟨?_, ?_⟩, ⟨?_, ?_⟩, ⟨?_, ?_⟩⟩ <;>
    [skip; skip; skip; skip; skip; skip] <;>
    first
    | (have h := frac_nonneg ((1 / 256 : ℝ) * w); have h2 := frac_lt_one ((1 / 256 : ℝ) * w)
       linarith)
    | (have h := frac_nonneg ((1 / (256 * 256) : ℝ) * w)
       have h2 := frac_lt_one ((1 / (256 * 256) : ℝ) * w)
       linarith)
    | (have h := frac_nonneg ((1 / (256 * 256 * 256) : ℝ) * w)
       have h2 := frac_lt_one ((1 / (256 * 256 * 256) : ℝ) * w)
       linarith)

/-! ## Claim C1 -/

/-- C1: for every 16-bit signed `w` other than `-32768`,
`decompress_normal_from_int16 w` returns `(x, y, z)` with
`x = (-1 + 2·frac(|w|/181))·(181/179)`,
`z = (-1 + 2·frac(|w|/181²))·(181/180)`,
`y = sign(w)·√(clamp(1 − x² − z², 0, 1))`, where `frac` is the
non-negative fractional part (in `[0, 1)`) and `sign_f` returns exactly
`-1`, `0` or `1`; and decompressing `-32768` equals decompressing `0`. -/
theorem c1_decompress_int16_formula (w : Int) (hlo : -32768 ≤ w) (hhi : w ≤ 32767)
    (hne : w ≠ -32768) :
    (decompress_normal_from_int16 w).1 = (-1 + 2 * frac (|(w : ℝ)| / 181)) * (181 / 179) ∧
    (decompress_normal_from_int16 w).2.2 =
      (-1 + 2 * frac (|(w : ℝ)| / (181 * 181))) * (181 / 180) ∧
    (decompress_normal_from_int16 w).2.1 = sign_f w * Real.sqrt (max 0 (min 1
      (1 - ((-1 + 2 * frac (|(w : ℝ)| / 181)) * (181 / 179)) ^ 2
        - ((-1 + 2 * frac (|(w : ℝ)| / (181 * 181))) * (181 / 180)) ^ 2))) ∧
    (0 ≤ frac (|(w : ℝ)| / 181) ∧ frac (|(w : ℝ)| / 181) < 1) ∧
    (sign_f w = -1 ∨ sign_f w = 0 ∨ sign_f w = 1) ∧
    decompress_normal_from_int16 (-32768) = decompress_normal_from_int16 0 := by
  have e1 : (1 / 181 : ℝ) * |(w : ℝ)| = |(w : ℝ)| / 181 := by ring
  have e2 : (1 / 181 / 181 : ℝ) * |(w : ℝ)| = |(w : ℝ)| / (181 * 181) := by ring
  have esq : ∀ a : ℝ, a * a = a ^ 2 := fun a => (sq a).symm
  refine ⟨?_, ?_, ?_, ⟨frac_nonneg _, frac_lt_one _⟩, ?_, ?_⟩
  · simp only [decompress_normal_from_int16, if_neg hne, e1]
  · simp only [decompress_normal_from_int16, if_neg hne, e2]
  · simp only [decompress_normal_from_int16, if_neg hne, e1, e2, saturate, esq]
  · unfold sign_f
    split_ifs <;> simp
  · simp only [decompress_normal_from_int16]
    norm_num

/-- Witness for C1 at `w = 3`. -/
theorem c1_witness :
    (decompress_normal_from_int16 3).1 = (-1 + 2 * frac (|((3 : Int) : ℝ)| / 181)) * (181 / 179) ∧
    (decompress_normal_from_int16 3).2.2 =
      (-1 + 2 * frac (|((3 : Int) : ℝ)| / (181 * 181))) * (181 / 180) ∧
    (decompress_normal_from_int16 3).2.1 = sign_f 3 * Real.sqrt (max 0 (min 1
      (1 - ((-1 + 2 * frac (|((3 : Int) : ℝ)| / 181)) * (181 / 179)) ^ 2
        - ((-1 + 2 * frac (|((3 : Int) : ℝ)| / (181 * 181))) * (181 / 180)) ^ 2))) ∧
    (0 ≤ frac (|((3 : Int) : ℝ)| / 181) ∧ frac (|((3 : Int) : ℝ)| / 181) < 1) ∧
    (sign_f 3 = -1 ∨ sign_f 3 = 0 ∨ sign_f 3 = 1) ∧
    decompress_normal_from_int16 (-32768) = decompress_normal_from_int16 0 :=
  c1_decompress_int16_formula 3 (by decide) (by decide) (by decide)

/-! ## Claim C6 -/

/-- Counterexample to C6: at `w = 0` both fractional parts vanish, so
`x = -181/179`, `z = -181/180`, the clamp floors the square root's
argument at 0 and `y = 0`; the squared norm is
`(181/179)² + (181/180)² > 2`, not `≤ 1 + ε` for any small `ε`. -/
theorem c6_counterexample :
    2 < (decompress_normal_from_int16 0).1 ^ 2 + (decompress_normal_from_int16 0).2.1 ^ 2 +
      (decompress_normal_from_int16 0).2.2 ^ 2 := by
  have h0 : ((0 : Int) : ℝ) = 0 := by norm_num
  have hfrac : frac 0 = 0 := by
    rw [frac_eq_fract, Int.fract_zero]
  have hsign : sign_f 0 = 0 := rfl
  simp only [decompress_normal_from_int16, if_neg (by decide : (0 : Int) ≠ -32768), h0,
    abs_zero, mul_zero, hfrac, hsign, zero_mul]
  norm_num

/-- Bound a squared component `((-1 + 2f)·c)²` by `c²` when `f ∈ [0, 1)`. -/
theorem comp_sq_le (f c : ℝ) (h0 : 0 ≤ f) (h1 : f < 1) :
    ((-1 + 2 * f) * c) ^ 2 ≤ c ^ 2 := by
  have h : (-1 + 2 * f) ^ 2 ≤ 1 := by nlinarith
  calc ((-1 + 2 * f) * c) ^ 2 = (-1 + 2 * f) ^ 2 * c ^ 2 := by ring
    _ ≤ 1 * c ^ 2 := mul_le_mul_of_nonneg_right h (sq_nonneg c)
    _ = c ^ 2 := one_mul _

/-- C6 as amended: for the int16 decompression the squared norm is bounded
by `(181/179)² + (181/180)²` (≈ 2.034, attained at `w = 0`), and for the
float decompression by `3`; the claimed `1 + ε` for small `ε` is refuted
by `c6_counterexample`. -/
theorem c6_sumsq_amended :
    (∀ w : Int,
      (decompress_normal_from_int16 w).1 ^ 2 + (decompress_normal_from_int16 w).2.1 ^ 2 +
        (decompress_normal_from_int16 w).2.2 ^ 2 ≤ (181 / 179 : ℝ) ^ 2 + (181 / 180) ^ 2) ∧
    (∀ w : ℝ,
      (decompress_normal_from_float w).1 ^ 2 + (decompress_normal_from_float w).2.1 ^ 2 +
        (decompress_normal_from_float w).2.2 ^ 2 ≤ 3) := by
  constructor
  · intro w
    simp only [decompress_normal_from_int16]
    set w' : Int := if w = -32768 then 0 else w with hw'
    set f1 := frac ((1 / 181) * |(w' : ℝ)|) with hf1
    set f2 := frac ((1 / 181 / 181) * |(w' : ℝ)|) with hf2
    set x : ℝ := (-1 + 2 * f1) * (181 / 179) with hx
    set z : ℝ := (-1 + 2 * f2) * (181 / 180) with hz
    have hx2 : x ^ 2 ≤ (181 / 179 : ℝ) ^ 2 :=
      comp_sq_le f1 _ (frac_nonneg _) (frac_lt_one _)
    have hz2 : z ^ 2 ≤ (181 / 180 : ℝ) ^ 2 :=
      comp_sq_le f2 _ (frac_nonneg _) (frac_lt_one _)
    have hs2 : sign_f w' ^ 2 ≤ 1 := by
      unfold sign_f; split_ifs <;> norm_num
    have hsat0 : (0 : ℝ) ≤ saturate (1 - x * x - z * z) := le_max_left _ _
    have hy2 : (sign_f w' * Real.sqrt (saturate (1 - x * x - z * z))) ^ 2 =
        sign_f w' ^ 2 * saturate (1 - x * x - z * z) := by
      rw [mul_pow, Real.sq_sqrt hsat0]
    rw [hy2]
    rcases le_or_lt (1 - x * x - z * z) 0 with ht | ht
    · have : saturate (1 - x * x - z * z) = 0 := by
        unfold saturate
        rw [min_eq_right (by linarith), max_eq_left ht]
      rw [this, mul_zero]
      linarith
    · have hsatle : saturate (1 - x * x - z * z) ≤ 1 - x * x - z * z := by
        unfold saturate
        calc max 0 (min 1 (1 - x * x - z * z)) = min 1 (1 - x * x - z * z) :=
              max_eq_right (le_min (by norm_num) (le_of_lt ht))
          _ ≤ 1 - x * x - z * z := min_le_right _ _
      have h179 : (1 : ℝ) ≤ (181 / 179 : ℝ) ^ 2 + (181 / 180) ^ 2 := by norm_num
      nlinarith [hsat0, hsatle, hs2, sq_nonneg (sign_f w')]
  · intro w
    have hb : ∀ t : ℝ, (-1 + 2 * frac t) ^ 2 ≤ 1 := by
      intro t
      have h0 := frac_nonneg t
      have h1 := frac_lt_one t
      nlinarith
    simp only [decompress_normal_from_float]
    have h1 := hb ((1 / 256 : ℝ) * w)
    have h2 := hb ((1 / (256 * 256) : ℝ) * w)
    have h3 := hb ((1 / (256 * 256 * 256) : ℝ) * w)
    linarith

/-! ## Claim C8 -/

/-- Dropping leading NULs (of the reversed list) cannot change whether an
alphabetic byte occurs: NUL is not alphabetic. -/
theorem dropWhile_zero_any_alpha (l : List Nat) :
    (l.dropWhile (· == 0)).any isAlphaAscii = l.any isAlphaAscii := by
  induction l with
  | nil => rfl
  | cons h t ih =>
    by_cases h0 : h = 0
    · subst h0
      simpa [List.dropWhile] using ih
    · have hne : (h == 0) = false := by simp [h0]
      simp [List.dropWhile, hne]

/-- A list is non-empty exactly when its length is positive. -/
theorem not_isEmpty_iff_length_pos (l : List Nat) : (!l.isEmpty) = true ↔ 0 < l.length := by
  cases l <;> simp

/-- Stripping trailing NULs preserves the presence of alphabetic bytes. -/
theorem rstrip0_any_alpha (l : List Nat) :
    (rstrip0 l).any isAlphaAscii = l.any isAlphaAscii := by
  unfold rstrip0
  rw [List.any_reverse, dropWhile_zero_any_alpha, List.any_reverse]

/-- Counterexample to C8: at offset 0 of the buffer `[1, 0, 0, 0, 97]` the
candidate has decoded length 1 (inside the claimed `(0, 100)`) and the
alphabetic payload `a`, so the claim accepts it; the code rejects it
because it additionally requires the NUL-stripped name to be strictly
longer than 1. -/
theorem c8_counterexample :
    specNameAccept bufC8 0 = true ∧ serNameAccept bufC8 0 = false := ⟨rfl, rfl⟩

/-- The decode loop is the identity on all-ASCII byte lists, given enough
fuel. -/
theorem utf8DecodeF_ascii (fuel : Nat) :
    ∀ l : List Nat, l.length ≤ fuel → l.all (· < 128) = true →
      utf8DecodeF fuel l = some l := by
  induction fuel with
  | zero =>
    intro l hl _
    have hnil : l = [] := List.eq_nil_of_length_eq_zero (Nat.le_zero.mp hl)
    subst hnil
    rfl
  | succ fuel ih =>
    intro l hl hall
    cases l with
    | nil => rfl
    | cons b rest =>
      rw [List.all_cons, Bool.and_eq_true, decide_eq_true_eq] at hall
      have hstep : utf8Step b rest = some (b, rest) := by
        rw [utf8Step.eq_def, if_pos hall.1]
      show (match utf8Step b rest with
            | some (cp, rest2) => (utf8DecodeF fuel rest2).map (cp :: ·)
            | none => none) = some (b :: rest)
      rw [hstep]
      show (utf8DecodeF fuel rest).map (b :: ·) = some (b :: rest)
      have hrl : rest.length ≤ fuel := by
        have := hl
        simp only [List.length_cons] at this
        omega
      rw [ih rest hrl hall.2]
      rfl

/-- Strict UTF-8 decoding is the identity on all-ASCII byte lists. -/
theorem utf8Decode_ascii (l : List Nat) (h : l.all (· < 128) = true) :
    utf8Decode l = some l :=
  utf8DecodeF_ascii l.length l (le_refl _) h

/-- C8 as amended, for candidates with an all-ASCII payload (the spec
itself frames the payloads as `ASCII-ish`; beyond ASCII the model's
alphabetic test is conservative while Python consults the Unicode
tables): a candidate is accepted exactly when the 4 length bytes fit in
the buffer, the decoded (unsigned) length is in `[1, 256]`, the payload
fits in the buffer, and the NUL-stripped decoded name has character
length strictly between 1 and 100 with at least one alphabetic
character; the cursor then moves past the string, and advances a single
byte on rejection. -/
theorem c8_accept_amended (b : Buf) (pos : Nat)
    (hascii : (serPayload b pos).all (· < 128) = true) :
    (serNameAccept b pos = true ↔
      (pos + 4 ≤ b.size ∧ 1 ≤ u32At b pos ∧ u32At b pos ≤ 256 ∧
        pos + 4 + u32At b pos ≤ b.size ∧
        1 < (rstrip0 (serPayload b pos)).length ∧
        (rstrip0 (serPayload b pos)).length < 100 ∧
        (serPayload b pos).any isAlphaAscii = true)) ∧
    serNameStep b pos = if serNameAccept b pos then pos + 4 + u32At b pos else pos + 1 := by
  by_cases hb4 : b.size < pos + 4
  · have hacc : serNameAccept b pos = false := by
      simp [serNameAccept, ser_read_string, if_pos hb4, acceptName]
    constructor
    · rw [hacc]
      simp only [Bool.false_eq_true, false_iff]
      intro h
      omega
    · simp [serNameStep, hacc, ser_read_string, if_pos hb4]
  · by_cases hlen : 256 < u32At b pos ∨ u32At b pos = 0
    · have hacc : serNameAccept b pos = false := by
        simp [serNameAccept, ser_read_string, if_neg hb4, if_pos hlen, acceptName]
      constructor
      · rw [hacc]
        simp only [Bool.false_eq_true, false_iff]
        intro h
        omega
      · simp [serNameStep, hacc, ser_read_string, if_neg hb4, if_pos hlen]
    · by_cases hfit : b.size < pos + 4 + u32At b pos
      · have hacc : serNameAccept b pos = false := by
          simp [serNameAccept, ser_read_string, if_neg hb4, if_neg hlen, if_pos hfit, acceptName]
        constructor
        · rw [hacc]
          simp only [Bool.false_eq_true, false_iff]
          intro h
          omega
        · simp [serNameStep, hacc, ser_read_string, if_neg hb4, if_neg hlen, if_pos hfit]
      · have hrd : ser_read_string b pos =
            (rstrip0 (serPayload b pos), pos + 4 + u32At b pos) := by
          simp only [ser_read_string, if_neg hb4, if_neg hlen, if_neg hfit]
          rw [utf8Decode_ascii (serPayload b pos) hascii]
        have hacc : serNameAccept b pos = acceptName (rstrip0 (serPayload b pos)) := by
          simp [serNameAccept, hrd]
        constructor
        · rw [hacc, acceptName]
          simp only [Bool.and_eq_true, decide_eq_true_eq, not_isEmpty_iff_length_pos,
            rstrip0_any_alpha]
          constructor
          · rintro ⟨⟨⟨hne, hgt⟩, hlt⟩, halpha⟩
            refine ⟨by omega, by omega, by omega, by omega, hgt, hlt, halpha⟩
          · rintro ⟨h1, h2, h3, h4, h5, h6, h7⟩
            exact ⟨⟨⟨by omega, h5⟩, h6⟩, h7⟩
        · rw [serNameStep, hrd]

/-- Witness for C8 at the buffer `[3, 0, 0, 0, 97, 98, 99]` (an accepted
candidate `abc` at offset 0). -/
theorem c8_witness :
    (serNameAccept (Buf.ofList [3, 0, 0, 0, 97, 98, 99]) 0 = true ↔
      (0 + 4 ≤ (Buf.ofList [3, 0, 0, 0, 97, 98, 99]).size ∧
        1 ≤ u32At (Buf.ofList [3, 0, 0, 0, 97, 98, 99]) 0 ∧
        u32At (Buf.ofList [3, 0, 0, 0, 97, 98, 99]) 0 ≤ 256 ∧
        0 + 4 + u32At (Buf.ofList [3, 0, 0, 0, 97, 98, 99]) 0 ≤
          (Buf.ofList [3, 0, 0, 0, 97, 98, 99]).size ∧
        1 < (rstrip0 (serPayload (Buf.ofList [3, 0, 0, 0, 97, 98, 99]) 0)).length ∧
        (rstrip0 (serPayload (Buf.ofList [3, 0, 0, 0, 97, 98, 99]) 0)).length < 100 ∧
        (serPayload (Buf.ofList [3, 0, 0, 0, 97, 98, 99]) 0).any isAlphaAscii = true)) ∧
    serNameStep (Buf.ofList [3, 0, 0, 0, 97, 98, 99]) 0 =
      if serNameAccept (Buf.ofList [3, 0, 0, 0, 97, 98, 99]) 0 then
        0 + 4 + u32At (Buf.ofList [3, 0, 0, 0, 97, 98, 99]) 0
      else 0 + 1 :=
  c8_accept_amended (Buf.ofList [3, 0, 0, 0, 97, 98, 99]) 0 rfl

/-! ## Claim C5 -/

/-- Counterexample to C5: in `blobC5` the first candidate (offset 4800,
the 0.8 fraction) scores exactly 80 of 100 valid records, which the claim
(`at least 80`) accepts; the code requires strictly more than 80, rejects
every candidate, and falls back to `int(6000 * 0.9) = 5400`. -/
theorem c5_counterexample :
    scoreAt blobC5 4800 = 80 ∧ faceCandidates blobC5 = [4800, 5100, 5400, 4200] ∧
      find_face_data_offset blobC5 = 0 ∧ serVertexEnd blobC5 = 5400 :=
  ⟨rfl, rfl, rfl, rfl⟩

/-- `List.find?` returns the head of the first satisfied suffix. -/
theorem find?_first {p : Nat → Bool} :
    ∀ (l₁ : List Nat) (t : Nat) (l₂ : List Nat), (∀ u ∈ l₁, p u = false) → p t = true →
      List.find? p (l₁ ++ t :: l₂) = some t := by
  intro l₁
  induction l₁ with
  | nil =>
    intro t l₂ _ hp
    simp [List.find?, hp]
  | cons h rest ih =>
    intro t l₂ hall hp
    have hh : p h = false := hall h (List.mem_cons_self h rest)
    simp only [List.cons_append, List.find?, hh]
    exact ih t l₂ (fun u hu => hall u (List.mem_cons_of_mem h hu)) hp

/-- C5 as amended: candidates `int(len*0.8), int(len*0.85), int(len*0.9),
int(len*0.7)` (double arithmetic, 6-byte aligned) are tested in that
order; the first candidate whose score strictly exceeds 80 of the
up-to-100 tested records becomes the vertex/face boundary (provided it is
a non-zero offset), and when every candidate scores 80 or less the
boundary falls back to `int(len*0.9)`. -/
theorem c5_face_offset_amended (g : Buf) :
    ((∀ u ∈ faceCandidates g, scoreAt g u ≤ 80) →
      serVertexEnd g = pyIntMulConst dbl09 g.size) ∧
    (∀ (l₁ : List Nat) (t : Nat) (l₂ : List Nat), faceCandidates g = l₁ ++ t :: l₂ →
      (∀ u ∈ l₁, scoreAt g u ≤ 80) → 80 < scoreAt g t → 0 < t → serVertexEnd g = t) := by
  constructor
  · intro hall
    have hnone : (faceCandidates g).find? (fun t => decide (80 < scoreAt g t)) = none := by
      rw [List.find?_eq_none]
      intro u hu
      simpa using hall u hu
    have h0 : find_face_data_offset g = 0 := by
      show (match (faceCandidates g).find? (fun t => decide (80 < scoreAt g t)) with
            | some t => t | none => 0) = 0
      rw [hnone]
    show (if 0 < find_face_data_offset g then find_face_data_offset g
      else pyIntMulConst dbl09 g.size) = pyIntMulConst dbl09 g.size
    rw [h0]
    simp
  · intro l₁ t l₂ hsplit hl₁ ht h0
    have hfind : (faceCandidates g).find? (fun u => decide (80 < scoreAt g u)) = some t := by
      rw [hsplit]
      exact find?_first l₁ t l₂ (fun u hu => by simpa using Nat.not_lt.mpr (hl₁ u hu)) (by simpa)
    have hoff : find_face_data_offset g = t := by
      show (match (faceCandidates g).find? (fun u => decide (80 < scoreAt g u)) with
            | some u => u | none => 0) = t
      rw [hfind]
    show (if 0 < find_face_data_offset g then find_face_data_offset g
      else pyIntMulConst dbl09 g.size) = t
    rw [hoff, if_pos h0]

/-- Witness for C5 at `blobW`: all records of the first candidate are
valid, so the boundary is the candidate offset 4800 itself. -/
theorem c5_witness :
    faceCandidates blobW = [4800, 5100, 5400, 4200] ∧ 80 < scoreAt blobW 4800 ∧
      serVertexEnd blobW = 4800 :=
  ⟨rfl, by decide,
    (c5_face_offset_amended blobW).2 [] 4800 [5100, 5400, 4200] rfl (by simp) (by decide)
      (by decide)⟩

/-! ## Claim C4 -/

/-- C4: when the buffer has a readable 4-byte header and both parsers fail
on it, `load_tpl` returns a result with no root node (tagged `1SER` when
the magic matched, `UNKNOWN` otherwise); the embedded `usf_parse` is
all-or-nothing by construction (`none` on any failed read, with no node
escaping), so no partial tree can surface. -/
theorem c4_no_partial_tree (b g : Buf) (hsz : 4 ≤ b.size) (husf : usf_parse b = none)
    (hser : ser_parse b g = none) :
    load_tpl b g = some (none, Fmt.ser) ∨ load_tpl b g = some (none, Fmt.unknown) := by
  unfold load_tpl
  by_cases hm : serMagicOk b = true
  · rw [if_pos hm, hser]
    left
    rfl
  · rw [if_neg hm, if_pos hsz]
    by_cases hv : 0 < i32At b 0 ∧ i32At b 0 < 1000
    · rw [if_pos hv, husf]
      right
      simp [tryBoth, hser, husf, loadResult]
    · rw [if_neg hv]
      right
      simp [tryBoth, hser, husf, loadResult]

/-- Witness for C4 at the 4-byte buffer `[1, 0, 0, 0]`: the USF parse dies
reading the first string, the SER parse dies at the magic check. -/
theorem c4_witness :
    load_tpl bufA bufEmpty = some (none, Fmt.ser) ∨
      load_tpl bufA bufEmpty = some (none, Fmt.unknown) :=
  c4_no_partial_tree bufA bufEmpty (by decide) rfl rfl

/-! ## Claim C2 -/

/-- Counterexample to C2: `bufCex` starts with the `1SER` magic, its SER
parse fails (no `TPL1` marker), and its USF parse succeeds with a root
node — yet `load_tpl` reports failure `(none, 1SER)` without the other
parser's success being used. -/
theorem c2_counterexample :
    serMagicOk bufCex = true ∧ ser_parse bufCex bufEmpty = none ∧
      resultHasRoot (usf_parse bufCex) = some true ∧
      load_tpl bufCex bufEmpty = some (none, Fmt.ser) :=
  ⟨rfl, rfl, rfl, rfl⟩

/-- A failed magic check fails the whole SER parse. -/
theorem ser_parse_no_magic (b g : Buf) (hm : serMagicOk b = false) :
    ser_parse b g = none := by
  have h : serNamedObjects b = none := by
    rw [serNamedObjects, if_neg (by simp [hm])]
  simp [ser_parse, h]

/-- C2 as amended: when the header selects USF (no `1SER` magic, version
in `(0, 1000)`) and USF fails, `load_tpl` does retry both parsers, but the
SER retry necessarily fails its magic check, so failure is reported as
`UNKNOWN`; when the header is `1SER` and the SER parser fails, failure is
reported immediately with the `1SER` tag, without attempting USF. -/
theorem c2_fallback_amended :
    (∀ b g : Buf, serMagicOk b = false → 4 ≤ b.size → 0 < i32At b 0 → i32At b 0 < 1000 →
      usf_parse b = none → load_tpl b g = some (none, Fmt.unknown)) ∧
    (∀ b g : Buf, serMagicOk b = true → ser_parse b g = none →
      load_tpl b g = some (none, Fmt.ser)) := by
  constructor
  · intro b g hm hsz hv1 hv2 husf
    have hser := ser_parse_no_magic b g hm
    unfold load_tpl
    rw [if_neg (by simp [hm]), if_pos hsz, if_pos ⟨hv1, hv2⟩, husf]
    simp [tryBoth, hser, husf, loadResult]
  · intro b g hm hser
    unfold load_tpl
    rw [if_pos hm, hser]

/-- Witness for C2 at `bufA` (USF branch, both parsers fail) and `bufCex`
(`1SER` branch, SER fails). -/
theorem c2_witness :
    load_tpl bufA bufEmpty = some (none, Fmt.unknown) ∧
      load_tpl bufCex bufEmpty = some (none, Fmt.ser) :=
  ⟨c2_fallback_amended.1 bufA bufEmpty rfl (by decide) (by decide) (by decide) rfl,
    c2_fallback_amended.2 bufCex bufEmpty rfl rfl⟩

/-! ## The SER dedup key

`serVertexStep` keeps its dedup key as the raw integer triple; these two
lemmas justify that: rounding a scaled position to 4 decimals is the
identity, and scaling is injective, so the source's rounded-triple keys
collide exactly when the integer triples do. -/

/-- Rounding a scaled position to 4 decimals is the identity: the Python
key `round(x * 0.01, 4)` equals `x * 0.01` itself. -/
theorem round4_scale (x : Int) : round4 ((x : ℚ) * (1 / 100)) = (x : ℚ) * (1 / 100) := by
  unfold round4
  have h : (x : ℚ) * (1 / 100) * 10000 = ((100 * x : Int) : ℚ) := by
    push_cast
    ring
  rw [h, round_intCast]
  push_cast
  ring

/-- Scaling by `1/100` is injective: distinct raw triples give distinct
rounded keys, so integer triples and rounded scaled triples dedup
identically. -/
theorem scale_inj (x y : Int) (h : (x : ℚ) * (1 / 100) = (y : ℚ) * (1 / 100)) : x = y := by
  have h2 := mul_right_cancel₀ (b := (1 / 100 : ℚ)) (by norm_num) h
  exact_mod_cast h2

/-! ## Claim C3 -/

/-- A successful `serNamedObjects` result is always a `nodesOfNames 0`
enumeration of the recovered names. -/
theorem serNamedObjects_shape (tpl : Buf) (objs : List TPLNode)
    (h : serNamedObjects tpl = some objs) : ∃ names, objs = nodesOfNames 0 names := by
  unfold serNamedObjects at h
  repeat' split at h
  all_goals cases h
  exact ⟨_, rfl⟩

/-- The uids of the recovered named objects starting at `k` are pairwise
distinct and all at least `k`. -/
theorem nodesOfNames_uids_nodup (names : List (List Nat)) :
    ∀ k : Nat, (NodeList.uids (NodeList.ofList (nodesOfNames k names))).Nodup ∧
      ∀ u ∈ NodeList.uids (NodeList.ofList (nodesOfNames k names)), (k : Int) ≤ u := by
  induction names with
  | nil =>
    intro k
    exact ⟨List.nodup_nil, by intro u hu; cases hu⟩
  | cons nm rest ih =>
    intro k
    have h := ih (k + 1)
    have hshow : NodeList.uids (NodeList.ofList (nodesOfNames k (nm :: rest))) =
        ((k : Nat) : Int) :: NodeList.uids (NodeList.ofList (nodesOfNames (k + 1) rest)) := rfl
    rw [hshow]
    constructor
    · rw [List.nodup_cons]
      refine ⟨fun hmem => ?_, h.1⟩
      have := h.2 _ hmem
      push_cast at this
      omega
    · intro u hu
      rcases List.mem_cons.mp hu with rfl | hu
      · exact le_refl _
      · have := h.2 u hu
        push_cast at this ⊢
        omega

/-- Unfolding `ser_parse` after a successful container parse. -/
theorem ser_parse_eq (tpl geom : Buf) (objs0 : List TPLNode)
    (hno : serNamedObjects tpl = some objs0) :
    ser_parse tpl geom = some (if (serObjs geom objs0).isEmpty then none
      else some (serRootNode (serObjs geom objs0))) := by
  unfold ser_parse
  rw [hno]

/-- `serObjs` when no geometry node was produced. -/
theorem serObjs_none (geom : Buf) (objs0 : List TPLNode) (hg : serGeometry geom = none) :
    serObjs geom objs0 = objs0 := by
  unfold serObjs
  rw [hg]

/-- `serObjs` when a geometry node was inserted at the front. -/
theorem serObjs_some (geom : Buf) (objs0 : List TPLNode) (m : TPLNode)
    (hg : serGeometry geom = some m) : serObjs geom objs0 = m :: objs0 := by
  unfold serObjs
  rw [hg]

/-- The geometry node, when inserted, is a leaf with uid 0. -/
theorem serGeometry_uids (g : Buf) (m : TPLNode) (h : serGeometry g = some m) :
    TPLNode.uids m = [0] := by
  unfold serGeometry at h
  split at h
  · cases h
  · split at h
    · cases h
      rfl
    · cases h

/-- Counterexample to C3: parsing `tplC3` (one named object) together with
`geomC3` (a non-empty geometry blob) yields the uid list `[-1, 0, 0]` — the
synthetic geometry node and the first named object both carry uid 0. -/
theorem c3_counterexample :
    serRootUids tplC3 geomC3 = some [-1, 0, 0] ∧ ¬ ([-1, 0, 0] : List Int).Nodup :=
  ⟨rfl, by decide⟩

/-- C3 as amended: USF imposes no uid uniqueness (uids are copied verbatim
from the file); in a SER tree the root carries uid `-1` and the named
objects the distinct uids `0, 1, …`, so all uids are pairwise distinct
whenever the synthetic geometry node is absent or no named object was
recovered — but the geometry node reuses uid 0 and collides with the
first named object when both are present (`c3_counterexample`). -/
theorem c3_uids_amended (tpl geom : Buf) (l : List Int)
    (h1 : serGeometry geom = none ∨ serNamedObjects tpl = some [])
    (h2 : serRootUids tpl geom = some l) : l.Nodup := by
  unfold serRootUids at h2
  cases hno : serNamedObjects tpl with
  | none =>
    rw [show ser_parse tpl geom = none from by unfold ser_parse; rw [hno]] at h2
    cases h2
  | some objs0 =>
    obtain ⟨names, rfl⟩ := serNamedObjects_shape tpl objs0 hno
    rw [ser_parse_eq tpl geom _ hno] at h2
    cases hg : serGeometry geom with
    | none =>
      rw [serObjs_none geom _ hg] at h2
      by_cases hemp : (nodesOfNames 0 names).isEmpty
      · rw [if_pos hemp] at h2
        cases h2
      · rw [if_neg hemp] at h2
        have h2' : some (TPLNode.uids (serRootNode (nodesOfNames 0 names))) = some l := h2
        have hl : ((-1 : Int) :: NodeList.uids (NodeList.ofList (nodesOfNames 0 names))) = l :=
          Option.some_injective _ h2'
        rw [← hl, List.nodup_cons]
        have hn := nodesOfNames_uids_nodup names 0
        refine ⟨fun hmem => ?_, hn.1⟩
        have := hn.2 _ hmem
        omega
    | some m =>
      rcases h1 with h1 | h1
      · rw [hg] at h1
        cases h1
      · rw [hno] at h1
        have hnames : nodesOfNames 0 names = [] := Option.some_injective _ h1
        rw [serObjs_some geom _ m hg, hnames] at h2
        have h2' : some (TPLNode.uids (serRootNode [m])) = some l := h2
        have hl : ((-1 : Int) :: (TPLNode.uids m ++ [])) = l := Option.some_injective _ h2'
        rw [← hl, serGeometry_uids geom m hg]
        decide

/-- Witness for C3 at `tplC3` with no geometry data: the tree's uids are
`[-1, 0]`, pairwise distinct. -/
theorem c3_witness :
    (serGeometry bufEmpty = none ∨ serNamedObjects tplC3 = some []) ∧
      serRootUids tplC3 bufEmpty = some [-1, 0] ∧ ([-1, 0] : List Int).Nodup :=
  ⟨Or.inl rfl, rfl, c3_uids_amended tplC3 bufEmpty [-1, 0] (Or.inl rfl) rfl⟩

/-! ## Claim C7 -/

/-- Counterexample to C7: `bufC7` parses successfully as USF into a root
node whose mesh has an empty position array and the face record
`(5, 0, 0)` — a face record whose indices are not below the position
count, kept rather than dropped (in the USF encoding the first face field
is a material index, not a vertex index). -/
theorem c7_counterexample :
    rootMeshFaces (usf_parse bufC7) = some [Face.mk 5 0 0] ∧
      rootMeshVertexCount (usf_parse bufC7) = some 0 ∧
      resultFacesOK (usf_parse bufC7) = some false :=
  ⟨rfl, rfl, rfl⟩

/-- Every face kept by the SER face loop has all three indices below the
bound it was checked against. -/
theorem serFaces_mem_bound (g : Buf) (off fds mv : Nat) (f : Face)
    (hf : f ∈ serFaces g off fds mv) : f.a < mv ∧ f.b < mv ∧ f.c < mv := by
  unfold serFaces at hf
  obtain ⟨i, hi, heq⟩ := List.mem_filterMap.mp hf
  by_cases h6 : g.size < off + 6 * i + 6
  · rw [if_pos h6] at heq
    cases heq
  · rw [if_neg h6] at heq
    by_cases hv : u16At g (off + 6 * i) < mv ∧ u16At g (off + 6 * i + 2) < mv ∧
        u16At g (off + 6 * i + 4) < mv
    · rw [if_pos hv] at heq
      cases heq
      exact hv
    · rw [if_neg hv] at heq
      cases heq

/-- The geometry node's mesh always satisfies the face-index bound. -/
theorem serGeometry_facesOK (g : Buf) (m : TPLNode) (h : serGeometry g = some m) :
    TPLNode.facesOK m = true := by
  unfold serGeometry at h
  split at h
  · cases h
  · split at h
    · cases h
      show (meshFacesOK (serMeshData g) && true) = true
      rw [Bool.and_true]
      unfold meshFacesOK
      rw [List.all_eq_true]
      intro f hf
      have hb := serFaces_mem_bound g (serVertexEnd g)
        (min (g.size - serVertexEnd g) 1000000)
        (serVertices g (serVertexEnd g / 8)).1.length f hf
      simp only [Bool.and_eq_true, decide_eq_true_eq]
      exact ⟨⟨hb.1, hb.2.1⟩, hb.2.2⟩
    · cases h

/-- The named objects carry no mesh, so their face check is vacuous. -/
theorem nodesOfNames_facesOK (names : List (List Nat)) :
    ∀ k, NodeList.facesOK (NodeList.ofList (nodesOfNames k names)) = true := by
  induction names with
  | nil => intro k; rfl
  | cons nm rest ih =>
    intro k
    show (TPLNode.facesOK (TPLNode.mk (k : Int) nm [] none .nil) &&
        NodeList.facesOK (NodeList.ofList (nodesOfNames (k + 1) rest))) = true
    rw [ih (k + 1)]
    rfl

/-- C7 as amended: in every tree returned by a successful SER parse, every
face record of every mesh has all three indices strictly below the length
of that mesh's position array (records violating the bound were dropped by
the face loop without aborting the parse); USF meshes instead store a
material index in the face record's first field, unbounded by the position
count (`c7_counterexample`). -/
theorem c7_faces_amended (tpl geom : Buf) :
    resultFacesOK (ser_parse tpl geom) ≠ some false := by
  cases hno : serNamedObjects tpl with
  | none =>
    have hsp : ser_parse tpl geom = none := by unfold ser_parse; rw [hno]
    rw [hsp]
    simp [resultFacesOK]
  | some objs0 =>
    obtain ⟨names, rfl⟩ := serNamedObjects_shape tpl objs0 hno
    rw [ser_parse_eq tpl geom _ hno]
    cases hg : serGeometry geom with
    | none =>
      rw [serObjs_none geom _ hg]
      by_cases hemp : (nodesOfNames 0 names).isEmpty
      · rw [if_pos hemp]
        simp [resultFacesOK]
      · rw [if_neg hemp]
        have hok : TPLNode.facesOK (serRootNode (nodesOfNames 0 names)) = true := by
          show (true && NodeList.facesOK (NodeList.ofList (nodesOfNames 0 names))) = true
          rw [Bool.true_and]
          exact nodesOfNames_facesOK names 0
        simp [resultFacesOK, hok]
    | some m =>
      rw [serObjs_some geom _ m hg]
      have hok : TPLNode.facesOK (serRootNode (m :: nodesOfNames 0 names)) = true := by
        show (true && (TPLNode.facesOK m &&
            NodeList.facesOK (NodeList.ofList (nodesOfNames 0 names)))) = true
        rw [Bool.true_and, serGeometry_facesOK geom m hg, nodesOfNames_facesOK names 0]
        rfl
      simp [resultFacesOK, hok]

end TPL
